import Mathlib

/-
Verification of the frappe FRP core against its specification.

The repository ships only its integration tests (src/tests/integration.rs)
and an example binary (src/examples/basic.rs); the library core itself
(observer registry, sink dispatch loop, stream/signal combinators) is not
present. Following the spec (spec.md §4.2 "Observer registry", §4.3
"Stream combinators", §4.4 "Sink", §4.5 "Signal"), the engine is modelled
here from the spec's own pseudocode and contracts, and the concrete
scenarios of the claims are taken verbatim from the tests.
-/

namespace Frappe

/-- Modelled from the spec (§3 "Observer registry", §4.2): the library's
observer-registry entry is missing from the sources; an entry is an opaque
monotonically increasing id, a deadness mark (a weak upgrade that fails
because the downstream anchor was dropped), and the callback, here
defunctionalized as a code of type `O`. -/
structure Entry (O : Type) where
  id : Nat
  dead : Bool
  code : O

/-- Modelled from the spec (§4.2 `iter_dispatch`): the registry's dispatch
pass is missing from the sources. It visits observers in registration
order; a dead entry (failed weak upgrade) is not invoked and is removed;
a live callback runs, may mutate the shared state `σ`, returns an alive
flag (false removes it after the pass), and may emit reentrant sends,
which are collected in the order they were issued. -/
def iter_dispatch {O σ α : Type} (runObs : O → σ → α → σ × Bool × List α) :
    List (Entry O) → σ → α → List (Entry O) × σ × List α
  | [], s, _ => ([], s, [])
  | e :: rest, s, v =>
    if e.dead then
      iter_dispatch runObs rest s v
    else
      let r := runObs e.code s v
      let t := iter_dispatch runObs rest r.1 v
      (if r.2.1 then e :: t.1 else t.1, t.2.1, r.2.2 ++ t.2.2)

/-- Modelled from the spec (§4.4 "Reentrancy protocol"): the sink's send
loop is missing from the sources. Pending events are processed FIFO; the
reentrant sends produced during one observer pass are pushed on the back
of the pending queue and dispatched only after that pass completes. The
`fuel` argument bounds the number of processed events so the model is
total; a run that empties its queue within the fuel reproduces the Rust
loop exactly. -/
def send_loop {O σ α : Type} (runObs : O → σ → α → σ × Bool × List α) :
    Nat → List (Entry O) → σ → List α → List (Entry O) × σ
  | _, reg, s, [] => (reg, s)
  | 0, reg, s, _ :: _ => (reg, s)
  | fuel + 1, reg, s, v :: pending =>
    let r := iter_dispatch runObs reg s v
    send_loop runObs fuel r.1 r.2.1 (pending ++ r.2.2)

/-- Modelled from the spec (§4.4 `send`): begins a dispatch of the single
event `v` with an empty pending queue. -/
def send {O σ α : Type} (runObs : O → σ → α → σ × Bool × List α)
    (fuel : Nat) (reg : List (Entry O)) (s : σ) (v : α) :
    List (Entry O) × σ :=
  send_loop runObs fuel reg s [v]

/-- Modelled from the spec (§4.4 `feed`): dispatches each item in
iteration order; semantically a loop of `send`. -/
def feed {O σ α : Type} (runObs : O → σ → α → σ × Bool × List α)
    (fuel : Nat) : List (Entry O) → σ → List α → List (Entry O) × σ
  | reg, s, [] => (reg, s)
  | reg, s, v :: vs =>
    let r := send runObs fuel reg s v
    feed runObs fuel r.1 r.2 vs

/-- Modelled from the spec (§3 "Stream", §5 "Lifetimes"): dropping the
last handle anchoring a subtree severs its registration at the upstream;
the weak upgrade fails on the next dispatch. Here the drop marks the
observer entry dead. -/
def dropHandle {O : Type} (i : Nat) (reg : List (Entry O)) : List (Entry O) :=
  reg.map fun e => if e.id = i then { e with dead := true } else e

/-- Modelled from the spec (§4.4 `feed` over a non-reentrant chain): for a
linear combinator chain with no reentrant sends, one `send` is one
depth-first pass of the event through the chain, i.e. one application of
the chain's per-event step to the accumulated state; `feed` iterates it in
order. -/
def feedEvents {σ α : Type} (step : σ → α → σ) : σ → List α → σ
  | s, [] => s
  | s, v :: vs => feedEvents step (step s v) vs

/-- Modelled from the spec (§4.3 `filter` then `fold`): one event through
`filter(p).fold(init, f)`: the filter node forwards the event unchanged
when the predicate holds, and the fold node then replaces the held
accumulator by `f acc v` (accumulator moved, no clone); otherwise the
accumulator is untouched. -/
def filterFoldStep {α β : Type} (p : α → Bool) (f : β → α → β)
    (acc : β) (v : α) : β :=
  if p v then f acc v else acc

/-- Modelled from the spec (§4.3 `collect`): `fold(empty, push)`; each
event is appended to the held collection. -/
def collectStep {α : Type} (acc : List α) (v : α) : List α :=
  acc ++ [v]

/-- Modelled from the spec (§4.3 `map` then `collect`): one event through
`map(f).collect()`: the map node emits `f v`, which the collect node
appends. -/
def mapCollectStep {α β : Type} (f : α → β) (acc : List β) (v : α) : List β :=
  acc ++ [f v]

/-- Modelled from the spec (§4.3 `filter` then `collect`): the event is
appended exactly when the predicate holds. -/
def filterCollectStep {α : Type} (p : α → Bool) (acc : List α) (v : α) : List α :=
  if p v then acc ++ [v] else acc

/-- Modelled from the spec (§4.3 `hold_if`): the held slot is updated to
the event only when the predicate holds. -/
def holdIfStep {α : Type} (p : α → Bool) (slot : α) (v : α) : α :=
  if p v then v else slot

/-- Rust's `%` on `i32` truncates toward zero, so the test's oddness
predicate `a % 2 != 0` is `Int.tmod`. -/
def oddPred (a : Int) : Bool := a.tmod 2 != 0

/-- The test's `hold_if` predicate `|a| *a > 0`. -/
def posPred (a : Int) : Bool := a > 0

/-- The event sequence fed by `stream_operations` (and the fan-out
scenario of spec §8.1). -/
def testFeed : List Int := [5, 8, 13, -2, 42, -33]

/-- The sign-splitting map of `stream_operations`:
`|a| if *a > 0 { Ok(*a) } else { Err(*a) }`. -/
def signRes (a : Int) : Except Int Int :=
  if a > 0 then .ok a else .error a

/-- Modelled from the spec (§4.3 `split` and `merge`): `split` routes each
event once by variant tag to exactly one child; `merge` emits each
upstream's events in arrival order with no reordering, so one source event
yields one merged event, negated on the error branch per the test's
`neg.map(|a| -*a)`. -/
def splitMergeStep (acc : List Int) (v : Int) : List Int :=
  match signRes v with
  | .ok p => acc ++ [p]
  | .error n => acc ++ [-n]

/-- Modelled from the spec (§4.3 `merge_with`): the interleaved send order
across the two sinks of the `merge_with` test, left events from `sink1`
and right events from `sink2`; `merge_with` applies `fL`/`fR` to unify the
types and emits in arrival order. The test's `f32` payloads carry no
arithmetic, so they are embedded as the corresponding rationals. -/
def mergeWithStep (acc : List (Except Rat Int)) (v : Sum Int Rat) :
    List (Except Rat Int) :=
  match v with
  | .inl l => acc ++ [.ok l]
  | .inr r => acc ++ [.error r]

/-- Modelled from the spec (§4.3 `map_n`): the callback may push zero or
more outputs via the provided sender; all outputs for one input are
delivered downstream, in the order sent, before the next input is
processed, so the collected list extends by the whole output batch. -/
def mapNStep {α β : Type} (f : α → List β) (acc : List β) (v : α) : List β :=
  acc ++ f v

/-- The `map_n` test's callback: emit `a` exactly `a` times. -/
def replicateSelf (a : Int) : List Int :=
  List.replicate a.toNat a

/-- The instrumented accumulator of the `cloning` test: a vector plus a
counter that its hand-written `Clone` impl increments. -/
structure Storage where
  vec : List Int
  clone_count : Nat

/-- The test's `Clone for Storage`: clones the vector and increments the
counter. -/
def Storage.clone (s : Storage) : Storage :=
  { vec := s.vec, clone_count := s.clone_count + 1 }

/-- The test's `Storage::push`: takes `self` by value (a move) and appends. -/
def Storage.push (s : Storage) (a : Int) : Storage :=
  { s with vec := s.vec ++ [a] }

/-- Modelled from the spec (§4.3 `fold`): the accumulator is moved through
`f` on every event; the library performs no clone during event
processing. -/
def foldStep {α β : Type} (f : β → α → β) (acc : β) (v : α) : β :=
  f acc v

/-- Modelled from the spec (§4.5 `sample`): reading a held signal returns
a value by clone (reads are snapshot copies). -/
def sampleHeld {β : Type} (clone : β → β) (slot : β) : β :=
  clone slot

/-- The three observers of the `stream_send_order` test, in registration
order on the source stream: the `observe(|_| false)` terminal, the
`fold(0, |a,_| a+1)` updater, and the `snapshot(&stream, |a,_| a)`
observer whose output feeds a `collect`. -/
inductive SendOrderObs
  | stop
  | foldUpd
  | snapCollect

/-- The shared state of the `stream_send_order` scenario: the fold
signal's held accumulator and the collected snapshot outputs. -/
structure SendOrderSt where
  count : Int
  collected : List Int

/-- Modelled from the spec (§4.3 `observe`, `fold`, `snapshot`; §4.5
"Held-signal update ordering"): `observe(|_| false)` does nothing and
returns false to self-unregister; the fold updater replaces the held
accumulator with `a + 1`; the snapshot observer samples the fold signal
at the moment of the event (not cached) and appends the sampled value to
the collect. -/
def runSendOrderObs : SendOrderObs → SendOrderSt → Unit → SendOrderSt × Bool × List Unit
  | .stop, s, _ => (s, false, [])
  | .foldUpd, s, _ => ({ s with count := s.count + 1 }, true, [])
  | .snapCollect, s, _ => ({ s with collected := s.collected ++ [s.count] }, true, [])

/-- The registry of `stream_send_order` in registration order: `observe`
first, then the fold updater, then the snapshot observer. -/
def sendOrderReg : List (Entry SendOrderObs) :=
  [⟨0, false, .stop⟩, ⟨1, false, .foldUpd⟩, ⟨2, false, .snapCollect⟩]

/-- Modelled from the spec (§4.3 `filter_map`, §4.4): the `reentrant`
test's single source observer: the `filter_map` callback sends `n + 1`
back into the same sink when `n < 10` and emits nothing; otherwise it
emits `Some(n)`, which the downstream `hold(0)` stores. The state is the
held slot. -/
def runReentrantObs : Unit → Int → Int → Int × Bool × List Int
  | _, hold, n => if n < 10 then (hold, true, [n + 1]) else (n, true, [])

/-- The single registered observer chain of the `reentrant` test. -/
def reentrantReg : List (Entry Unit) := [⟨0, false, ()⟩]

/-- The three parallel branches of the `deletion` test, each a
`map(|n| n + i)` into an `inspect` writing a cell. -/
inductive DelObs
  | branch1
  | branch2
  | branch3

/-- The three cells of the `deletion` test. -/
structure DelSt where
  c1 : Int
  c2 : Int
  c3 : Int

/-- Modelled from the spec (§4.3 `map`, `inspect`): branch `i` writes
`n + i` into its cell and stays registered. -/
def runDelObs : DelObs → DelSt → Int → DelSt × Bool × List Int
  | .branch1, s, n => ({ s with c1 := n + 1 }, true, [])
  | .branch2, s, n => ({ s with c2 := n + 2 }, true, [])
  | .branch3, s, n => ({ s with c3 := n + 3 }, true, [])

/-- The registry of the `deletion` test in registration order. -/
def delReg : List (Entry DelObs) :=
  [⟨0, false, .branch1⟩, ⟨1, false, .branch2⟩, ⟨2, false, .branch3⟩]

/-- The registry after the middle branch's last handle is dropped and the
next dispatch prunes the failed weak upgrade. -/
def delRegPruned : List (Entry DelObs) :=
  [⟨0, false, .branch1⟩, ⟨2, false, .branch3⟩]

/-- Modelled from the spec (§3 "Signal", §4.5 `map`): a signal that is
either the scenario's held signal or a computed signal that on each
sample reads its inner signal and applies a function. -/
inductive Sig : Type → Type 1
  | held : Sig Int
  | mapped {α β : Type} : Sig α → (α → β) → Sig β

/-- The graph state of the `signal_chain` scenario: the held slot feeding
the chain. -/
structure SigSt where
  hold : Int

/-- Modelled from the spec (§4.5 `sample`): sampling a held signal reads
the cached slot; sampling a computed `map` signal samples the inner
signal and applies the captured function. The state is threaded so that
any mutation sampling might perform would be observable. -/
def sampleSig {α : Type} : Sig α → SigSt → α × SigSt
  | .held, s => (s.hold, s)
  | .mapped inner f, s =>
    let r := sampleSig inner s
    (f r.1, r.2)

/-- Modelled from the spec (§4.3 `hold`): the held slot is overwritten by
each event delivered to its updater. -/
def holdUpdate (s : SigSt) (v : Int) : SigSt :=
  { s with hold := v }

/-- The `signal_chain` test's signal: four `map`s stacked on
`sink.stream().hold(0)`. -/
def chainE : Sig String :=
  ((((Sig.held.mapped fun a => a + 1).mapped fun a => a * 2).mapped
    fun a => "(" ++ toString a ++ ")").mapped fun s => s ++ ".-")

/-! Helper lemmas shared by the claim theorems. -/

/-- A `collect` over a chain accumulates exactly the delivered events, in
arrival order, appended after whatever was already collected. -/
theorem feedEvents_collect {α : Type} (acc : List α) (es : List α) :
    feedEvents collectStep acc es = acc ++ es := by
  induction es generalizing acc with
  | nil => simp [feedEvents]
  | cons v vs ih => simp [feedEvents, collectStep, ih]

/-- A `map(f).collect()` chain accumulates the images of the delivered
events, in arrival order. -/
theorem feedEvents_mapCollect {α β : Type} (f : α → β) (acc : List β) (es : List α) :
    feedEvents (mapCollectStep f) acc es = acc ++ es.map f := by
  induction es generalizing acc with
  | nil => simp [feedEvents]
  | cons v vs ih => simp [feedEvents, mapCollectStep, ih]

/-- Event processing of a `fold` over `Storage.push` never touches the
clone counter: the accumulator is moved, not cloned. -/
theorem feedEvents_push_clone_count (acc : Storage) (es : List Int) :
    (feedEvents (foldStep Storage.push) acc es).clone_count = acc.clone_count := by
  induction es generalizing acc with
  | nil => rfl
  | cons v vs ih => simpa [feedEvents, foldStep, Storage.push] using ih _

/-- A `fold` over `Storage.push` accumulates the delivered events into
the vector, in arrival order. -/
theorem feedEvents_push_vec (acc : Storage) (es : List Int) :
    (feedEvents (foldStep Storage.push) acc es).vec = acc.vec ++ es := by
  induction es generalizing acc with
  | nil => simp [feedEvents]
  | cons v vs ih => simp [feedEvents, foldStep, Storage.push, ih]

/-- A send loop whose pending queue is empty returns at once, whatever
fuel remains: an emptied queue is exactly termination of the Rust
dispatch loop. -/
theorem send_loop_nil {O σ α : Type} (runObs : O → σ → α → σ × Bool × List α)
    (fuel : Nat) (reg : List (Entry O)) (s : σ) :
    send_loop runObs fuel reg s [] = (reg, s) := by
  cases fuel <;> rfl

/-- One dispatch through the pruned `deletion` registry updates the two
surviving cells and leaves the registry as it was. -/
theorem send_delRegPruned (s : DelSt) (v : Int) :
    send runDelObs 1 delRegPruned s v =
      (delRegPruned, { c1 := v + 1, c2 := s.c2, c3 := v + 3 }) := rfl

/-- After the middle branch is pruned, no number of further dispatches
can write its cell. -/
theorem feed_delRegPruned_c2 (s : DelSt) (es : List Int) :
    (feed runDelObs 1 delRegPruned s es).2.c2 = s.c2 := by
  induction es generalizing s with
  | nil => rfl
  | cons v vs ih =>
    show (feed runDelObs 1 delRegPruned { c1 := v + 1, c2 := s.c2, c3 := v + 3 } vs).2.c2 = s.c2
    exact ih _

/-- Sampling any signal in the `map`-chain model returns the state it was
given: the library introduces no mutation on the sampling path. -/
theorem sampleSig_state {α : Type} (g : Sig α) (s : SigSt) :
    (sampleSig g s).2 = s := by
  induction g generalizing s with
  | held => rfl
  | mapped inner f ih => simpa [sampleSig] using ih s

/-! The claims. -/

/-- C1. `stream_send_order`: with `observe(|_| false)` registered first,
then the `fold(0, |a,_| a+1)` updater, then the
`snapshot(&stream, |a,_| a).collect()` observer, three sends of `()`
collect `[1, 2, 3]`: each snapshot reads the fold's post-update
accumulator because the updater was registered before the snapshot
observer. -/
theorem snapshot_post_update_order :
    (feed runSendOrderObs 1 sendOrderReg ⟨0, []⟩ [(), (), ()]).2.collected
      = [1, 2, 3] := rfl

/-- C2. `reentrant`: reentrant sends are queued FIFO and dispatched after
the current observer pass: seeding the `filter_map` chain (which sends
`n + 1` while `n < 10`, else emits `Some n` into `hold(0)`) with `1`
drains the queue within 10 dispatches — for every fuel reserve `f` the
loop returns with the registry intact and the held signal at exactly
`10`. -/
theorem reentrant_send_fifo (f : Nat) :
    send_loop runReentrantObs (f + 10) reentrantReg 0 [1]
      = (reentrantReg, 10) := by
  have h : send_loop runReentrantObs (f + 10) reentrantReg 0 [1]
      = send_loop runReentrantObs f reentrantReg 10 [] := rfl
  rw [h, send_loop_nil]

/-- C3. `stream_operations` fan-out on `[5, 8, 13, -2, 42, -33]`:
`map(to_string).collect()` samples to the decimal strings,
`filter(odd).collect()` samples to `[5, 13, -33]`, and
`hold_if(0, positive).sample()` returns `42`. -/
theorem basic_fan_out :
    feedEvents (mapCollectStep (fun a : Int => toString a)) [] testFeed
        = ["5", "8", "13", "-2", "42", "-33"]
      ∧ feedEvents (filterCollectStep oddPred) [] testFeed = [5, 13, -33]
      ∧ feedEvents (holdIfStep posPred) 0 testFeed = 42 :=
  ⟨rfl, rfl, rfl⟩

/-- C4. For every delivered event sequence, predicate, seed and fold
function, `s.filter(p).fold(init, f).sample()` is the left fold of `f`
over `init` and exactly the events satisfying `p`, in arrival order. -/
theorem filter_fold_law {α β : Type} (p : α → Bool) (f : β → α → β)
    (init : β) (es : List α) :
    feedEvents (filterFoldStep p f) init es
      = List.foldl f init (es.filter p) := by
  induction es generalizing init with
  | nil => rfl
  | cons v vs ih =>
    by_cases h : p v <;>
      simp [feedEvents, filterFoldStep, List.filter_cons, h, ih]

/-- C5. `deletion`: sending `10` writes `11, 12, 13` into the three
cells; after the middle branch's handle is dropped, the next send of `20`
skips and prunes the dead observer, leaving the middle cell at `12` while
the others update to `21` and `23`; and from the pruned registry no
further feed ever changes the middle cell. -/
theorem subtree_deletion_frame :
    (send runDelObs 1 delReg ⟨0, 0, 0⟩ 10).2 = ⟨11, 12, 13⟩
      ∧ send runDelObs 1 (dropHandle 1 (send runDelObs 1 delReg ⟨0, 0, 0⟩ 10).1)
          (send runDelObs 1 delReg ⟨0, 0, 0⟩ 10).2 20
        = (delRegPruned, ⟨21, 12, 23⟩)
      ∧ ∀ (s : DelSt) (es : List Int),
          (feed runDelObs 1 delRegPruned s es).2.c2 = s.c2 :=
  ⟨rfl, rfl, fun s es => feed_delRegPruned_c2 s es⟩

/-- C6. `cloning`: event processing moves the accumulator through the
fold with zero clones for every finite feed, and after feeding
`0, 1, 2, 3, 4` a single `sample()` yields the vector `[0, 1, 2, 3, 4]`
with a clone count of exactly `1` (the one clone made by sampling). -/
theorem fold_moves_accumulator :
    (∀ es : List Int,
        (feedEvents (foldStep Storage.push) ⟨[], 0⟩ es).clone_count = 0)
      ∧ (sampleHeld Storage.clone
            (feedEvents (foldStep Storage.push) ⟨[], 0⟩ [0, 1, 2, 3, 4])).vec
          = [0, 1, 2, 3, 4]
      ∧ (sampleHeld Storage.clone
            (feedEvents (foldStep Storage.push) ⟨[], 0⟩ [0, 1, 2, 3, 4])).clone_count
          = 1 :=
  ⟨fun es => feedEvents_push_clone_count ⟨[], 0⟩ es, rfl, rfl⟩

/-- C7. `map_n`: all outputs the callback pushes for one input are
delivered in the order sent before the next input is processed; for the
inputs `0, 1, 2, 3` and the transform emitting `a` exactly `a` times,
the collect samples to `[1, 2, 2, 3, 3, 3]`. -/
theorem map_n_ordered_outputs :
    feedEvents (mapNStep replicateSelf) [] [0, 1, 2, 3]
      = [1, 2, 2, 3, 3, 3] := rfl

/-- C8. `merge` preserves arrival order: splitting
`[5, 8, 13, -2, 42, -33]` by sign and merging the positives with the
negated negatives collects `[5, 8, 13, 2, 42, 33]`; and `merge_with`
over the two-sink send order `1, 2.0, 3, 4, 5.0` collects
`[Ok 1, Err 2.0, Ok 3, Ok 4, Err 5.0]`. -/
theorem merge_preserves_arrival_order :
    feedEvents splitMergeStep [] testFeed = [5, 8, 13, 2, 42, 33]
      ∧ feedEvents mergeWithStep []
          [.inl 1, .inr 2.0, .inl 3, .inl 4, .inr 5.0]
        = [.ok 1, .error 2.0, .ok 3, .ok 4, .error 5.0] :=
  ⟨rfl, rfl⟩

/-- C9. For every function `f` and every delivered event sequence,
`s.map(f).collect()` samples to exactly the element-wise image under `f`
of what `s.collect()` samples to: same length, same order. -/
theorem map_collect_commute {α β : Type} (f : α → β) (es : List α) :
    feedEvents (mapCollectStep f) [] es
      = (feedEvents collectStep [] es).map f := by
  simp [feedEvents_collect, feedEvents_mapCollect]

/-- C10. `signal_chain`: sampling is read-only and repeatable — for every
signal built as a chain of `map`s over the held signal, sampling returns
the state unchanged and two consecutive samples agree; concretely, the
test's chain samples to `"(2).-"` before any event (from the hold's
initial `0`) and to `"(86).-"` after `send 42`. -/
theorem sample_readonly_repeatable :
    (∀ (α : Type) (g : Sig α) (s : SigSt),
        (sampleSig g s).2 = s
          ∧ sampleSig g (sampleSig g s).2 = sampleSig g s)
      ∧ (sampleSig chainE { hold := 0 }).1 = "(2).-"
      ∧ (sampleSig chainE (holdUpdate { hold := 0 } 42)).1 = "(86).-" :=
  ⟨fun α g s => ⟨sampleSig_state g s, by rw [sampleSig_state g s]⟩, rfl, rfl⟩

end Frappe
